import Mathlib

/-!
Shallow embedding of the durability layer of `push-and-pray/e-db`:
the fixed-size page manager (`src/page/mod.rs`), the write-ahead log
manager (`src/log/mod.rs`) and the buffer descriptor (`src/cache/mod.rs`).

Bytes are modelled as `Nat` (well-formed pages carry values `< 256`),
files as flat byte lists, and `io::Error` as a small inductive.  The
only environmental nondeterminism the claims need is whether the
underlying page write succeeds, so `LogManager.flushE` takes the
outcome of that write as an explicit argument; the success-path
operations are derived from it.
-/

/-- Models `std::io::Error` as far as the repository distinguishes
errors: the short-read `UnexpectedEof` from `read_exact`, the
`InvalidInput` raised by `LogManager::append`, and an otherwise
unspecified environmental write failure. -/
inductive IOError where
  | unexpectedEof : IOError
  | invalidInput : String → IOError
  | writeFailed : IOError
deriving Repr, DecidableEq

/-- Models the `Page` used by `LogManager` in `src/log/mod.rs`: a byte
buffer together with its logical position (`Page::new(position, page_size)`,
`self.tail.position`).  The, older, position-free `Page` of
`src/page/mod.rs` is recovered by ignoring `position`. -/
structure Page where
  position : Nat
  data : List Nat
deriving Repr, DecidableEq

/-- Models `Page::new(position, page_size)`: a zero-initialized buffer of
`page_size` bytes. -/
def Page.new (position page_size : Nat) : Page :=
  ⟨position, List.replicate page_size 0⟩

/-- Big-endian two-byte encoding, as produced by `u16::to_be_bytes`. -/
def u16be (v : Nat) : List Nat :=
  [v / 256 % 256, v % 256]

/-- Models the `set_offset` extension method of `src/log/mod.rs`:
overwrite the first two bytes of the page with the big-endian encoding
of `v` (`self.mutate()[..2].copy_from_slice(&offset.to_be_bytes())`). -/
def Page.set_offset (p : Page) (v : Nat) : Page :=
  ⟨p.position, u16be v ++ p.data.drop 2⟩

/-- Models the `get_offset` extension method of `src/log/mod.rs`:
`u16::from_be_bytes` of the first two bytes. -/
def Page.get_offset (p : Page) : Nat :=
  p.data.getD 0 0 * 256 + p.data.getD 1 0

/-- Overwrite `bytes.length` bytes of `l` starting at byte `off`, as
`slice[off..off+len].copy_from_slice(bytes)` does (in scope the range
lies inside `l`). -/
def listWrite (l : List Nat) (off : Nat) (bytes : List Nat) : List Nat :=
  l.take off ++ bytes ++ l.drop (off + bytes.length)

/-- Seek to byte `off` and overwrite with `bytes`, as `seek(Start(off))`
followed by `write_all(bytes)` does on a file: a seek past EOF followed
by a write fills the gap with zero bytes. -/
def writeBytes (file : List Nat) (off : Nat) (bytes : List Nat) : List Nat :=
  let f := file ++ List.replicate (off - file.length) 0
  f.take off ++ bytes ++ f.drop (off + bytes.length)

/-- Models `PageManager` of `src/page/mod.rs`: one backing file (a flat
byte sequence) and a fixed page size. -/
structure PageManager where
  file : List Nat
  page_size : Nat
deriving Repr, DecidableEq

/-- Models `PageManager::n_pages`: file length divided by page size (the
source asserts the length is an exact multiple; theorems that rely on
that carry it as a hypothesis). -/
def PageManager.n_pages (pm : PageManager) : Nat :=
  pm.file.length / pm.page_size

/-- Models `PageManager::read_page(position)`: seek to
`position * page_size` and `read_exact` `page_size` bytes; a short read
is `ErrorKind::UnexpectedEof`. -/
def PageManager.read_page (pm : PageManager) (position : Nat) : Except IOError (List Nat) :=
  if position * pm.page_size + pm.page_size ≤ pm.file.length then
    Except.ok ((pm.file.drop (position * pm.page_size)).take pm.page_size)
  else
    Except.error IOError.unexpectedEof

/-- Models `PageManager::write_page(position, page)`: seek to
`position * page_size` and write the whole page in place (the source
panics unless `page.len() == page_size`; theorems carry that as a
hypothesis). -/
def PageManager.write_page (pm : PageManager) (position : Nat) (page : List Nat) : PageManager :=
  { pm with file := writeBytes pm.file (position * pm.page_size) page }

/-- Models `LogManager` of `src/log/mod.rs`: the underlying page
manager, the in-memory tail page, and the two LSN counters (`u32` in the
source; overflow of the per-append increment is a fatal condition, so
they are modelled as `Nat`). -/
structure LogManager where
  log : PageManager
  tail : Page
  latest_lsn : Nat
  latest_flushed_lsn : Nat
deriving Repr, DecidableEq

/-- Models `LogManager::new(path, page_size)` applied to a file holding
`file`: on an empty file a fresh tail at position 0 with offset header
`page_size`; otherwise the tail is loaded from the last page,
`read_page(n_pages() - 1)`.  Both LSN counters start at 0. -/
def LogManager.new (file : List Nat) (page_size : Nat) : Except IOError LogManager :=
  let pm : PageManager := ⟨file, page_size⟩
  if file.length = 0 then
    Except.ok ⟨pm, (Page.new 0 page_size).set_offset page_size, 0, 0⟩
  else
    match pm.read_page (pm.n_pages - 1) with
    | Except.error e => Except.error e
    | Except.ok d => Except.ok ⟨pm, ⟨pm.n_pages - 1, d⟩, 0, 0⟩

/-- Models `LogManager::flush` with the outcome `w` of the underlying
`self.log.write_page(&self.tail)` supplied by the environment.  The
source stores the write result, then sets
`latest_flushed_lsn = latest_lsn` unconditionally, then returns the
stored result. -/
def LogManager.flushE (lm : LogManager) (w : Except IOError Unit) :
    Except IOError Unit × LogManager :=
  let log :=
    match w with
    | Except.ok _ => lm.log.write_page lm.tail.position lm.tail.data
    | Except.error _ => lm.log
  (w, { lm with log := log, latest_flushed_lsn := lm.latest_lsn })

/-- `LogManager::flush` on the success path (the underlying write
succeeds). -/
def LogManager.flush (lm : LogManager) : LogManager :=
  (lm.flushE (Except.ok ())).2

/-- Models `LogManager::flush_since_lsn(lsn)` on the success path:
flush exactly when `lsn >= latest_flushed_lsn`, then return `Ok(())`. -/
def LogManager.flush_since_lsn (lm : LogManager) (lsn : Nat) :
    Except IOError Unit × LogManager :=
  if lm.latest_flushed_lsn ≤ lsn then (Except.ok (), lm.flush) else (Except.ok (), lm)

/-- Models `LogManager::append(data)` on the success path: reject data
longer than `page_size - 2`; if the free space `offset - 2` is smaller
than the record, flush the tail and start a fresh one at
`position + 1` with offset `page_size`; then copy the record into
`[offset - len, offset)` and lower the offset header by `len`;
`latest_lsn` increases by exactly 1. -/
def LogManager.append (lm : LogManager) (data : List Nat) :
    Except IOError Unit × LogManager :=
  let offset := lm.tail.get_offset
  let freespace := offset - 2
  if lm.log.page_size - 2 < data.length then
    (Except.error (IOError.invalidInput "log data is larger than maximum page size"), lm)
  else
    let rolled :=
      if freespace < data.length then
        let lmf := lm.flush
        let t := (Page.new (lm.tail.position + 1) lm.log.page_size).set_offset lm.log.page_size
        ({ lmf with tail := t }, lm.log.page_size)
      else
        (lm, offset)
    let lm1 := rolled.1
    let off1 := rolled.2
    let new_offset := off1 - data.length
    let written : Page := ⟨lm1.tail.position, listWrite lm1.tail.data new_offset data⟩
    (Except.ok (),
      { lm1 with tail := written.set_offset new_offset, latest_lsn := lm1.latest_lsn + 1 })

/-- Models `Buffer` of `src/cache/mod.rs`: an optional page reference,
the page's position, the last modifying transaction id (`i32`), the LSN
of that modification (`i32`) and the pin count (`usize`). -/
structure Buffer where
  page : Option Page
  page_position : Nat
  tx_id : Int
  lsn : Int
  pins : Nat
deriving Repr, DecidableEq

/-- Models `Buffer::new`. -/
def Buffer.new : Buffer :=
  ⟨none, 0, -1, 1, 0⟩

/-- Models `Buffer::pin`: increment the pin count unconditionally. -/
def Buffer.pin (b : Buffer) : Buffer :=
  { b with pins := b.pins + 1 }

/-- Models `Buffer::unpin`: `debug_assert!(self.pins > 0)` then
decrement.  A failed assertion is a halt, modelled as `none`. -/
def Buffer.unpin (b : Buffer) : Option Buffer :=
  if b.pins > 0 then some { b with pins := b.pins - 1 } else none

/-- Models `Buffer::is_pinned`: pin count strictly positive. -/
def Buffer.is_pinned (b : Buffer) : Bool :=
  decide (b.pins > 0)

/-- Models `Buffer::mark_modified(tx_id, lsn)`: record the transaction
unconditionally, take the new LSN only when it is strictly positive. -/
def Buffer.mark_modified (b : Buffer) (tx_id lsn : Int) : Buffer :=
  { b with tx_id := tx_id, lsn := if 0 < lsn then lsn else b.lsn }

/-- States of a `LogManager` reachable from `LogManager::new` by
`append`, `flush` (with any outcome of the underlying write) and
`flush_since_lsn`. -/
inductive LogManager.Reachable : LogManager → Prop where
  | init (file : List Nat) (page_size : Nat) (lm : LogManager) :
      LogManager.new file page_size = Except.ok lm → LogManager.Reachable lm
  | step_append (lm : LogManager) (data : List Nat) :
      LogManager.Reachable lm → LogManager.Reachable (lm.append data).2
  | step_flush (lm : LogManager) (w : Except IOError Unit) :
      LogManager.Reachable lm → LogManager.Reachable (lm.flushE w).2
  | step_flush_since (lm : LogManager) (lsn : Nat) :
      LogManager.Reachable lm → LogManager.Reachable (lm.flush_since_lsn lsn).2

theorem get_offset_set_offset (p : Page) (v : Nat) (h : v < 65536) :
    (p.set_offset v).get_offset = v := by
  simp [Page.set_offset, Page.get_offset, u16be, List.getD]
  omega

/-- C8: mark_modified sets tx_id unconditionally, updates lsn only for
strictly positive lsn, and leaves every other field unchanged. -/
theorem C8_mark_modified (b : Buffer) (tx_id lsn : Int) :
    (b.mark_modified tx_id lsn).tx_id = tx_id ∧
    (0 < lsn → (b.mark_modified tx_id lsn).lsn = lsn) ∧
    (lsn ≤ 0 → (b.mark_modified tx_id lsn).lsn = b.lsn) ∧
    (b.mark_modified tx_id lsn).page = b.page ∧
    (b.mark_modified tx_id lsn).page_position = b.page_position ∧
    (b.mark_modified tx_id lsn).pins = b.pins := by
  refine ⟨rfl, ?_, ?_, rfl, rfl, rfl⟩ <;> intro h <;> simp [Buffer.mark_modified] <;> omega

theorem C8_mark_modified_witness :
    ((Buffer.new.mark_modified 7 5).tx_id = 7 ∧ (Buffer.new.mark_modified 7 5).lsn = 5) ∧
    (Buffer.new.mark_modified 7 0).lsn = 1 := by
  refine ⟨⟨(C8_mark_modified Buffer.new 7 5).1, (C8_mark_modified Buffer.new 7 5).2.1 (by decide)⟩,
    ?_⟩
  have := (C8_mark_modified Buffer.new 7 0).2.2.1 (by decide)
  simpa [Buffer.new] using this

/-- C9: is_pinned iff pin count positive; unpin under a positive pin
count decrements by exactly one, changing nothing else; unpin at pin
count zero is stopped by the assertion. -/
theorem C9_pin_contract (b : Buffer) :
    (b.is_pinned = true ↔ 0 < b.pins) ∧
    (0 < b.pins → ∃ b', b.unpin = some b' ∧ b'.pins + 1 = b.pins ∧
      b'.page = b.page ∧ b'.page_position = b.page_position ∧
      b'.tx_id = b.tx_id ∧ b'.lsn = b.lsn) ∧
    (b.pins = 0 → b.unpin = none) := by
  refine ⟨by simp [Buffer.is_pinned], ?_, ?_⟩
  · intro h
    exact ⟨{ b with pins := b.pins - 1 }, by simp [Buffer.unpin, h], by simp; omega, rfl, rfl, rfl, rfl⟩
  · intro h
    simp [Buffer.unpin, h]

theorem C9_pin_contract_witness :
    (Buffer.new.pin.is_pinned = true ∧
      ∃ b', Buffer.new.pin.unpin = some b' ∧ b'.pins + 1 = Buffer.new.pin.pins) ∧
    Buffer.new.unpin = none := by
  refine ⟨⟨?_, ?_⟩, (C9_pin_contract Buffer.new).2.2 rfl⟩
  · exact (C9_pin_contract Buffer.new.pin).1.2 (by decide)
  · obtain ⟨b', h1, h2, -⟩ := (C9_pin_contract Buffer.new.pin).2.1 (by decide)
    exact ⟨b', h1, h2⟩

/-- C1 counterexample: after one append on a fresh page-size-8 manager
(`latest_lsn = 1`, `latest_flushed_lsn = 0`), a flush whose underlying
write fails still overwrites `latest_flushed_lsn` with `latest_lsn`, so
the in-memory state is not unchanged. -/
theorem C1_counterexample :
    (LogManager.flushE ⟨⟨[], 8⟩, ⟨0, [0, 7, 0, 0, 0, 0, 0, 65]⟩, 1, 0⟩
        (Except.error IOError.writeFailed)).1 = Except.error IOError.writeFailed ∧
    ¬ (LogManager.flushE ⟨⟨[], 8⟩, ⟨0, [0, 7, 0, 0, 0, 0, 0, 65]⟩, 1, 0⟩
        (Except.error IOError.writeFailed)).2.latest_flushed_lsn =
      (LogManager.mk ⟨[], 8⟩ ⟨0, [0, 7, 0, 0, 0, 0, 0, 65]⟩ 1 0).latest_flushed_lsn :=
  ⟨rfl, by decide⟩

/-- C1 (amended): when the underlying page write fails, flush propagates
exactly that error, leaves `latest_lsn`, the tail and the file
unchanged, but still sets `latest_flushed_lsn = latest_lsn`. -/
theorem C1_flush_error_state (lm : LogManager) (e : IOError) :
    (lm.flushE (Except.error e)).1 = Except.error e ∧
    (lm.flushE (Except.error e)).2.latest_lsn = lm.latest_lsn ∧
    (lm.flushE (Except.error e)).2.tail = lm.tail ∧
    (lm.flushE (Except.error e)).2.log = lm.log ∧
    (lm.flushE (Except.error e)).2.latest_flushed_lsn = lm.latest_lsn := by
  refine ⟨rfl, rfl, rfl, rfl, rfl⟩

/-- C2: flush_since_lsn flushes (writes the tail at its position and
raises `latest_flushed_lsn` to `latest_lsn`) exactly when
`lsn >= latest_flushed_lsn`; otherwise it returns `Ok(())` with the
whole state untouched. -/
theorem C2_flush_since_lsn (lm : LogManager) (lsn : Nat) :
    (lm.latest_flushed_lsn ≤ lsn →
      (lm.flush_since_lsn lsn).1 = Except.ok () ∧
      (lm.flush_since_lsn lsn).2.log.file =
        writeBytes lm.log.file (lm.tail.position * lm.log.page_size) lm.tail.data ∧
      (lm.flush_since_lsn lsn).2.latest_flushed_lsn = lm.latest_lsn ∧
      (lm.flush_since_lsn lsn).2.tail = lm.tail ∧
      (lm.flush_since_lsn lsn).2.latest_lsn = lm.latest_lsn) ∧
    (lsn < lm.latest_flushed_lsn → lm.flush_since_lsn lsn = (Except.ok (), lm)) := by
  constructor
  · intro h
    simp [LogManager.flush_since_lsn, h, LogManager.flush, LogManager.flushE,
      PageManager.write_page]
  · intro h
    simp [LogManager.flush_since_lsn, Nat.not_le.mpr h]

theorem C2_flush_since_lsn_witness :
    ((LogManager.flush_since_lsn ⟨⟨[], 8⟩, ⟨0, [0, 7, 0, 0, 0, 0, 0, 65]⟩, 1, 0⟩ 0).1 =
        Except.ok () ∧
      (LogManager.flush_since_lsn ⟨⟨[], 8⟩, ⟨0, [0, 7, 0, 0, 0, 0, 0, 65]⟩, 1, 0⟩
          0).2.latest_flushed_lsn = 1) ∧
    LogManager.flush_since_lsn ⟨⟨[], 8⟩, ⟨0, [0, 7, 0, 0, 0, 0, 0, 65]⟩, 1, 2⟩ 1 =
      (Except.ok (), ⟨⟨[], 8⟩, ⟨0, [0, 7, 0, 0, 0, 0, 0, 65]⟩, 1, 2⟩) := by
  constructor
  · have h := (C2_flush_since_lsn ⟨⟨[], 8⟩, ⟨0, [0, 7, 0, 0, 0, 0, 0, 65]⟩, 1, 0⟩ 0).1
      (by decide)
    exact ⟨h.1, h.2.2.1⟩
  · exact (C2_flush_since_lsn ⟨⟨[], 8⟩, ⟨0, [0, 7, 0, 0, 0, 0, 0, 65]⟩, 1, 2⟩ 1).2 (by decide)

/-- C3: append fails (with the invalid-input error) iff the record is
longer than `page_size - 2`; a failed append returns the manager
completely unchanged (no flush, no tail replacement, same
`latest_lsn`); a record of exactly `page_size - 2` bytes against an
empty tail (offset header = page_size) always succeeds. -/
theorem C3_append_size (lm : LogManager) (data : List Nat) (hps : 2 ≤ lm.log.page_size)
    (hoff : 2 ≤ lm.tail.get_offset) :
    ((lm.append data).1 =
        Except.error (IOError.invalidInput "log data is larger than maximum page size") ↔
      lm.log.page_size - 2 < data.length) ∧
    (lm.log.page_size - 2 < data.length → (lm.append data).2 = lm) ∧
    (lm.tail.get_offset = lm.log.page_size → data.length = lm.log.page_size - 2 →
      (lm.append data).1 = Except.ok ()) := by
  by_cases h : lm.log.page_size - 2 < data.length
  · refine ⟨by simp [LogManager.append, h], fun _ => by simp [LogManager.append, h],
      fun h1 h2 => absurd (h2 ▸ h) (lt_irrefl _)⟩
  · refine ⟨by simp [LogManager.append, h], fun hc => absurd hc h, fun h1 h2 => ?_⟩
    simp [LogManager.append, h]

theorem C3_append_size_witness :
    ((LogManager.append ⟨⟨[], 8⟩, ⟨0, [0, 8, 0, 0, 0, 0, 0, 0]⟩, 0, 0⟩ [65, 65, 65, 65, 65, 65, 65]).1 =
        Except.error (IOError.invalidInput "log data is larger than maximum page size") ∧
      (LogManager.append ⟨⟨[], 8⟩, ⟨0, [0, 8, 0, 0, 0, 0, 0, 0]⟩, 0, 0⟩ [65, 65, 65, 65, 65, 65, 65]).2 =
        ⟨⟨[], 8⟩, ⟨0, [0, 8, 0, 0, 0, 0, 0, 0]⟩, 0, 0⟩) ∧
    (LogManager.append ⟨⟨[], 8⟩, ⟨0, [0, 8, 0, 0, 0, 0, 0, 0]⟩, 0, 0⟩ [65, 65, 65, 65, 65, 65]).1 =
      Except.ok () := by
  refine ⟨⟨?_, ?_⟩, ?_⟩
  · exact (C3_append_size ⟨⟨[], 8⟩, ⟨0, [0, 8, 0, 0, 0, 0, 0, 0]⟩, 0, 0⟩ _ (by decide)
      (by decide)).1.mpr (by decide)
  · exact (C3_append_size ⟨⟨[], 8⟩, ⟨0, [0, 8, 0, 0, 0, 0, 0, 0]⟩, 0, 0⟩ _ (by decide)
      (by decide)).2.1 (by decide)
  · exact (C3_append_size ⟨⟨[], 8⟩, ⟨0, [0, 8, 0, 0, 0, 0, 0, 0]⟩, 0, 0⟩ _ (by decide)
      (by decide)).2.2 (by decide) (by decide)

/-- C7: reading a position at or past `n_pages()` fails with an I/O
error; writing a full page at any position and reading it back returns
exactly the written bytes. -/
theorem C7_page_round_trip (pm : PageManager) (position : Nat) (page : List Nat)
    (hps : 0 < pm.page_size) :
    (pm.n_pages ≤ position → pm.read_page position = Except.error IOError.unexpectedEof) ∧
    (page.length = pm.page_size →
      (pm.write_page position page).read_page position = Except.ok page) := by
  constructor
  · intro h
    have hlt : pm.file.length < position * pm.page_size + pm.page_size := by
      have h2 : pm.file.length / pm.page_size < position + 1 := Nat.lt_succ_of_le h
      have := (Nat.div_lt_iff_lt_mul hps).mp h2
      calc pm.file.length < (position + 1) * pm.page_size := this
        _ = position * pm.page_size + pm.page_size := by ring
    simp [PageManager.read_page, Nat.not_le.mpr hlt]
  · intro hlen
    simp only [PageManager.write_page, PageManager.read_page, writeBytes]
    set off := position * pm.page_size with hoffdef
    set f := pm.file ++ List.replicate (off - pm.file.length) 0 with hfdef
    have hfl : off ≤ f.length := by
      simp only [hfdef, List.length_append, List.length_replicate]
      omega
    have htl : (f.take off).length = off := by
      simp [List.length_take, hfl]
    have key : ∀ (l₁ l₂ : List Nat) (n : Nat), l₁.length = n → (l₁ ++ l₂).drop n = l₂ := by
      intro l₁ l₂ n h
      subst h
      exact List.drop_left _ _
    have hlen2 : off + pm.page_size ≤
        (f.take off ++ page ++ f.drop (off + page.length)).length := by
      simp only [List.length_append, htl, hlen]
      omega
    rw [if_pos hlen2, List.append_assoc, key _ _ _ htl, ← hlen, List.take_left]

theorem C7_page_round_trip_witness :
    (PageManager.mk [] 4).read_page 0 = Except.error IOError.unexpectedEof ∧
    ((PageManager.mk [] 4).write_page 2 [1, 2, 3, 4]).read_page 2 = Except.ok [1, 2, 3, 4] := by
  exact ⟨(C7_page_round_trip ⟨[], 4⟩ 0 [] (by decide)).1 (by decide),
    (C7_page_round_trip ⟨[], 4⟩ 2 [1, 2, 3, 4] (by decide)).2 (by decide)⟩

/-- C6: opening on an empty file yields a fresh tail at position 0 whose
offset header equals `page_size`; opening on a non-empty, page-aligned
file loads the tail from the last page, position `n_pages() - 1`, with
that page's exact bytes; in both cases the LSN counters start at 0. -/
theorem C6_new_tail (file : List Nat) (page_size : Nat) :
    (file = [] → 2 ≤ page_size → page_size < 65536 →
      ∃ lm, LogManager.new file page_size = Except.ok lm ∧
        lm.tail.position = 0 ∧ lm.tail.get_offset = page_size ∧
        lm.tail.data.length = page_size ∧
        lm.latest_lsn = 0 ∧ lm.latest_flushed_lsn = 0) ∧
    (file ≠ [] → 0 < page_size → file.length % page_size = 0 →
      ∃ lm, LogManager.new file page_size = Except.ok lm ∧
        lm.tail.position = (PageManager.mk file page_size).n_pages - 1 ∧
        lm.tail.data =
          (file.drop (((PageManager.mk file page_size).n_pages - 1) * page_size)).take
            page_size ∧
        lm.latest_lsn = 0 ∧ lm.latest_flushed_lsn = 0) := by
  constructor
  · intro he h2 h65536
    subst he
    refine ⟨⟨⟨[], page_size⟩, (Page.new 0 page_size).set_offset page_size, 0, 0⟩,
      by simp [LogManager.new], rfl, get_offset_set_offset _ _ h65536, ?_, rfl, rfl⟩
    simp [Page.set_offset, Page.new, u16be]
    omega
  · intro hne hps hmul
    have hlen : 0 < file.length := List.length_pos.mpr hne
    have hn : 0 < (PageManager.mk file page_size).n_pages := by
      simp only [PageManager.n_pages]
      exact Nat.div_pos (Nat.le_of_dvd hlen (Nat.dvd_of_mod_eq_zero hmul)) hps
    have hread : ((PageManager.mk file page_size).n_pages - 1) * page_size + page_size ≤
        file.length := by
      have : (PageManager.mk file page_size).n_pages * page_size = file.length := by
        simp only [PageManager.n_pages]
        exact Nat.div_mul_cancel (Nat.dvd_of_mod_eq_zero hmul)
      calc ((PageManager.mk file page_size).n_pages - 1) * page_size + page_size
          = (PageManager.mk file page_size).n_pages * page_size := by
            have hge : page_size ≤ (PageManager.mk file page_size).n_pages * page_size :=
              Nat.le_mul_of_pos_left _ hn
            rw [Nat.sub_one_mul]
            omega
        _ ≤ file.length := Nat.le_of_eq this
    refine ⟨⟨⟨file, page_size⟩, ⟨(PageManager.mk file page_size).n_pages - 1,
        (file.drop (((PageManager.mk file page_size).n_pages - 1) * page_size)).take page_size⟩,
        0, 0⟩, ?_, rfl, rfl, rfl, rfl⟩
    simp only [LogManager.new, PageManager.read_page]
    rw [if_neg (by omega), if_pos hread]

theorem C6_new_tail_witness :
    (∃ lm, LogManager.new [] 8 = Except.ok lm ∧
      lm.tail.position = 0 ∧ lm.tail.get_offset = 8 ∧ lm.tail.data.length = 8 ∧
      lm.latest_lsn = 0 ∧ lm.latest_flushed_lsn = 0) ∧
    (∃ lm, LogManager.new
        [0, 2, 67, 67, 66, 66, 65, 65, 0, 7, 0, 0, 0, 0, 0, 68] 8 = Except.ok lm ∧
      lm.tail.position =
        (PageManager.mk [0, 2, 67, 67, 66, 66, 65, 65, 0, 7, 0, 0, 0, 0, 0, 68] 8).n_pages - 1 ∧
      lm.tail.data =
        (List.drop
          (((PageManager.mk [0, 2, 67, 67, 66, 66, 65, 65, 0, 7, 0, 0, 0, 0, 0, 68] 8).n_pages
              - 1) * 8)
          [0, 2, 67, 67, 66, 66, 65, 65, 0, 7, 0, 0, 0, 0, 0, 68]).take 8 ∧
      lm.latest_lsn = 0 ∧ lm.latest_flushed_lsn = 0) :=
  ⟨(C6_new_tail [] 8).1 rfl (by decide) (by decide),
    (C6_new_tail [0, 2, 67, 67, 66, 66, 65, 65, 0, 7, 0, 0, 0, 0, 0, 68] 8).2 (by decide)
      (by decide) (by decide)⟩

theorem append_eq_no_roll (lm : LogManager) (data : List Nat)
    (hsz : ¬ (lm.log.page_size - 2 < data.length))
    (hnr : ¬ (lm.tail.get_offset - 2 < data.length)) :
    lm.append data =
      (Except.ok (),
        ⟨lm.log,
          (Page.mk lm.tail.position
            (listWrite lm.tail.data (lm.tail.get_offset - data.length) data)).set_offset
            (lm.tail.get_offset - data.length),
          lm.latest_lsn + 1, lm.latest_flushed_lsn⟩) := by
  simp only [LogManager.append, if_neg hsz, if_neg hnr]

theorem append_eq_roll (lm : LogManager) (data : List Nat)
    (hsz : ¬ (lm.log.page_size - 2 < data.length))
    (hroll : lm.tail.get_offset - 2 < data.length) :
    lm.append data =
      (Except.ok (),
        ⟨lm.log.write_page lm.tail.position lm.tail.data,
          (Page.mk
            ((Page.new (lm.tail.position + 1) lm.log.page_size).set_offset
              lm.log.page_size).position
            (listWrite ((Page.new (lm.tail.position + 1) lm.log.page_size).set_offset
              lm.log.page_size).data (lm.log.page_size - data.length) data)).set_offset
            (lm.log.page_size - data.length),
          lm.latest_lsn + 1, lm.latest_lsn⟩) := by
  simp only [LogManager.append, if_neg hsz, if_pos hroll, LogManager.flush, LogManager.flushE]

/-- C4: with page size 8 the records "AA", "BB", "CC", "D" cause exactly
one rollover, on "D": no flush happens before it, page 0 on disk then
holds `[0,2,67,67,66,66,65,65]` and the new tail at position 1 holds
`[0,7,0,0,0,0,0,68]`; in general an in-range append flushes the tail and
replaces it with a fresh tail at `position + 1` (offset reset to
`page_size` before the record is placed) exactly when the free space
`offset - 2` is smaller than the record length. -/
theorem C4_rollover :
    (∀ lm₀, LogManager.new [] 8 = Except.ok lm₀ →
      (((lm₀.append [65, 65]).2.append [66, 66]).2.append [67, 67]).2.tail.position = 0 ∧
      (((lm₀.append [65, 65]).2.append [66, 66]).2.append [67, 67]).2.log.file = [] ∧
      ((((lm₀.append [65, 65]).2.append [66, 66]).2.append [67, 67]).2.append
          [68]).2.log.file = [0, 2, 67, 67, 66, 66, 65, 65] ∧
      ((((lm₀.append [65, 65]).2.append [66, 66]).2.append [67, 67]).2.append
          [68]).2.tail.position = 1 ∧
      ((((lm₀.append [65, 65]).2.append [66, 66]).2.append [67, 67]).2.append
          [68]).2.tail.data = [0, 7, 0, 0, 0, 0, 0, 68]) ∧
    (∀ (lm : LogManager) (data : List Nat),
      data.length ≤ lm.log.page_size - 2 →
      2 ≤ lm.tail.get_offset →
      lm.tail.get_offset ≤ lm.log.page_size →
      lm.log.page_size < 65536 →
      (lm.tail.get_offset - 2 < data.length →
        (lm.append data).2.tail.position = lm.tail.position + 1 ∧
        (lm.append data).2.log.file =
          writeBytes lm.log.file (lm.tail.position * lm.log.page_size) lm.tail.data ∧
        (lm.append data).2.latest_flushed_lsn = lm.latest_lsn ∧
        (lm.append data).2.tail.get_offset = lm.log.page_size - data.length) ∧
      (data.length ≤ lm.tail.get_offset - 2 →
        (lm.append data).2.tail.position = lm.tail.position ∧
        (lm.append data).2.log.file = lm.log.file ∧
        (lm.append data).2.latest_flushed_lsn = lm.latest_flushed_lsn ∧
        (lm.append data).2.tail.get_offset = lm.tail.get_offset - data.length)) := by
  constructor
  · intro lm₀ h
    have he : lm₀ = ⟨⟨[], 8⟩, ⟨0, [0, 8, 0, 0, 0, 0, 0, 0]⟩, 0, 0⟩ := by
      simp [LogManager.new, Page.new, Page.set_offset, u16be] at h
      exact h.symm
    subst he
    decide
  · intro lm data hfit h2 hle h65536
    have hsz : ¬ (lm.log.page_size - 2 < data.length) := Nat.not_lt.mpr hfit
    constructor
    · intro hroll
      rw [append_eq_roll lm data hsz hroll]
      exact ⟨rfl, rfl, rfl, get_offset_set_offset _ _ (by omega)⟩
    · intro hnr
      rw [append_eq_no_roll lm data hsz (Nat.not_lt.mpr hnr)]
      exact ⟨rfl, rfl, rfl, get_offset_set_offset _ _ (by omega)⟩

theorem C4_rollover_witness :
    (((((LogManager.mk ⟨[], 8⟩ ⟨0, [0, 8, 0, 0, 0, 0, 0, 0]⟩ 0 0).append [65, 65]).2.append
        [66, 66]).2.append [67, 67]).2.append [68]).2.log.file =
      [0, 2, 67, 67, 66, 66, 65, 65] ∧
    ((LogManager.mk ⟨[], 8⟩ ⟨0, [0, 7, 0, 0, 0, 0, 0, 65]⟩ 1 0).append [66]).2.tail.position =
      0 := by
  constructor
  · exact ((C4_rollover.1 ⟨⟨[], 8⟩, ⟨0, [0, 8, 0, 0, 0, 0, 0, 0]⟩, 0, 0⟩ rfl).2.2).1
  · exact ((C4_rollover.2 ⟨⟨[], 8⟩, ⟨0, [0, 7, 0, 0, 0, 0, 0, 65]⟩, 1, 0⟩ [66] (by decide)
      (by decide) (by decide) (by decide)).2 (by decide)).1

theorem set_offset_get_offset (p : Page) (h2 : 2 ≤ p.data.length)
    (hb : ∀ b ∈ p.data, b < 256) : p.set_offset p.get_offset = p := by
  obtain ⟨pos, data⟩ := p
  match data, h2 with
  | d0 :: d1 :: rest, _ =>
    have hb0 : d0 < 256 := hb d0 (by simp)
    have hb1 : d1 < 256 := hb d1 (by simp [List.mem_cons])
    simp only [Page.set_offset, Page.get_offset, u16be, List.getD, List.get?, Option.getD,
      List.drop, Page.mk.injEq, List.cons_append, List.nil_append, List.cons.injEq, and_true,
      true_and]
    constructor
    · omega
    · omega

/-- C10: appending a zero-length record to a manager with a well-formed
tail always succeeds, raises `latest_lsn` by exactly 1, triggers no
flush or tail replacement, and leaves every byte of the tail (and the
file and `latest_flushed_lsn`) unchanged. -/
theorem C10_empty_append (lm : LogManager)
    (hlen : lm.tail.data.length = lm.log.page_size)
    (h2 : 2 ≤ lm.tail.get_offset)
    (hle : lm.tail.get_offset ≤ lm.log.page_size)
    (hb : ∀ b ∈ lm.tail.data, b < 256) :
    lm.append [] =
      (Except.ok (), ⟨lm.log, lm.tail, lm.latest_lsn + 1, lm.latest_flushed_lsn⟩) := by
  have hsz : ¬ (lm.log.page_size - 2 < List.length ([] : List Nat)) := by simp
  have hnr : ¬ (lm.tail.get_offset - 2 < List.length ([] : List Nat)) := by simp
  rw [append_eq_no_roll lm [] hsz hnr]
  have hw : listWrite lm.tail.data (lm.tail.get_offset - 0) [] = lm.tail.data := by
    simp [listWrite]
  have : (Page.mk lm.tail.position
      (listWrite lm.tail.data (lm.tail.get_offset - List.length ([] : List Nat)) [])).set_offset
      (lm.tail.get_offset - List.length ([] : List Nat)) = lm.tail := by
    simp only [List.length_nil, Nat.sub_zero]
    rw [show listWrite lm.tail.data lm.tail.get_offset [] = lm.tail.data by simp [listWrite]]
    exact set_offset_get_offset lm.tail (by omega) hb
  rw [this]

theorem C10_empty_append_witness :
    (LogManager.mk ⟨[], 8⟩ ⟨0, [0, 5, 0, 0, 0, 67, 66, 65]⟩ 3 0).append [] =
      (Except.ok (), ⟨⟨[], 8⟩, ⟨0, [0, 5, 0, 0, 0, 67, 66, 65]⟩, 4, 0⟩) :=
  C10_empty_append ⟨⟨[], 8⟩, ⟨0, [0, 5, 0, 0, 0, 67, 66, 65]⟩, 3, 0⟩ (by decide) (by decide)
    (by decide) (by decide)

theorem new_lsn_zero (file : List Nat) (page_size : Nat) (lm : LogManager)
    (h : LogManager.new file page_size = Except.ok lm) :
    lm.latest_lsn = 0 ∧ lm.latest_flushed_lsn = 0 := by
  simp only [LogManager.new] at h
  split at h
  · cases h
    exact ⟨rfl, rfl⟩
  · split at h
    · cases h
    · cases h
      exact ⟨rfl, rfl⟩

/-- C5: in every state reachable from `LogManager::new` by `append`,
`flush` and `flush_since_lsn`, `latest_flushed_lsn <= latest_lsn`;
moreover both counters start at 0 and each successful append raises
`latest_lsn` by exactly 1. -/
theorem C5_lsn_invariant :
    (∀ lm, LogManager.Reachable lm → lm.latest_flushed_lsn ≤ lm.latest_lsn) ∧
    (∀ (file : List Nat) (page_size : Nat) (lm : LogManager),
      LogManager.new file page_size = Except.ok lm →
      lm.latest_lsn = 0 ∧ lm.latest_flushed_lsn = 0) ∧
    (∀ (lm : LogManager) (data : List Nat), (lm.append data).1 = Except.ok () →
      (lm.append data).2.latest_lsn = lm.latest_lsn + 1) := by
  have happ : ∀ (lm : LogManager) (data : List Nat),
      ¬ (lm.log.page_size - 2 < data.length) →
      (lm.append data).2.latest_lsn = lm.latest_lsn + 1 ∧
      ((lm.append data).2.latest_flushed_lsn = lm.latest_flushed_lsn ∨
        (lm.append data).2.latest_flushed_lsn = lm.latest_lsn) := by
    intro lm data hsz
    by_cases hroll : lm.tail.get_offset - 2 < data.length
    · rw [append_eq_roll lm data hsz hroll]
      exact ⟨rfl, Or.inr rfl⟩
    · rw [append_eq_no_roll lm data hsz]
      · exact ⟨rfl, Or.inl rfl⟩
      · exact hroll
  refine ⟨?_, new_lsn_zero, ?_⟩
  · intro lm h
    induction h with
    | init file page_size lm hnew =>
      obtain ⟨h1, h2⟩ := new_lsn_zero file page_size lm hnew
      omega
    | step_append lm data hr ih =>
      by_cases hsz : lm.log.page_size - 2 < data.length
      · simpa [LogManager.append, hsz] using ih
      · obtain ⟨h1, h2⟩ := happ lm data hsz
        omega
    | step_flush lm w hr ih =>
      exact Nat.le_refl _
    | step_flush_since lm lsn hr ih =>
      simp only [LogManager.flush_since_lsn]
      split
      · exact Nat.le_refl _
      · exact ih
  · intro lm data h
    by_cases hsz : lm.log.page_size - 2 < data.length
    · simp [LogManager.append, hsz] at h
    · exact (happ lm data hsz).1

theorem C5_lsn_invariant_witness :
    (((LogManager.mk ⟨[], 8⟩ ⟨0, [0, 8, 0, 0, 0, 0, 0, 0]⟩ 0 0).append
        [65]).2.flushE (Except.ok ())).2.latest_flushed_lsn ≤
      (((LogManager.mk ⟨[], 8⟩ ⟨0, [0, 8, 0, 0, 0, 0, 0, 0]⟩ 0 0).append
        [65]).2.flushE (Except.ok ())).2.latest_lsn ∧
    ((LogManager.mk ⟨[], 8⟩ ⟨0, [0, 8, 0, 0, 0, 0, 0, 0]⟩ 0 0).append [65]).2.latest_lsn =
      0 + 1 := by
  constructor
  · exact C5_lsn_invariant.1 _
      (LogManager.Reachable.step_flush _ _
        (LogManager.Reachable.step_append _ [65]
          (LogManager.Reachable.init [] 8 ⟨⟨[], 8⟩, ⟨0, [0, 8, 0, 0, 0, 0, 0, 0]⟩, 0, 0⟩ rfl)))
  · exact C5_lsn_invariant.2.2 ⟨⟨[], 8⟩, ⟨0, [0, 8, 0, 0, 0, 0, 0, 0]⟩, 0, 0⟩ [65] rfl
